import Mathlib

/-!
Verification of the measurement backend `backend/bsc.py` of the
bamboo-scanner repository.  The module-level mutable session of the Python
file is embedded as an explicit `State` value, every operation the claims
touch is translated as a function on `State`, and Python exceptions are
made explicit through `Except PyErr`.  The external OpenCV library is
outside the repository, so the quantities it computes for a contour
(area, simplified-polygon vertex count, bounding rectangle, hull area,
moments) are carried as fields of the embedded `Contour`.
-/

namespace BSC

/-- A pixel coordinate, as stored in an OpenCV contour: integer (x, y). -/
abbrev Point := Int × Int

/-- A raw contour together with the quantities the external OpenCV library
reports for it: `contourArea`, the vertex count of `approxPolyDP` at
epsilon equal to one percent of the perimeter, the axis-aligned
`boundingRect` as (x, y, w, h), the convex-hull area, and the spatial
moments m00, m10, m01 used for the centroid. -/
structure Contour where
  points : List Point
  area : ℚ
  approxLen : ℕ
  rectX : Int
  rectY : Int
  rectW : Int
  rectH : Int
  hullArea : ℚ
  m00 : ℚ
  m10 : ℚ
  m01 : ℚ
  deriving DecidableEq, Inhabited, Repr

/-- A detected circumference: a contour paired with its integer centroid,
mirroring the tuples stored in the Python list of circumferences. -/
abbrev Circumference := Contour × Point

/-- Errors a run of the Python code can surface.  The last two constructors
are the error kinds named by the specification; the code itself only ever
produces the generic Python exceptions of the first four constructors. -/
inductive PyErr where
  | indexError
  | typeError
  | zeroDivisionError
  | valueError
  | calibrationNotSet
  | degenerateContour
  deriving DecidableEq, Repr

/-- One polar profile: radius list, angle list, average diameter. -/
abbrev ProfileData := List ℝ × List ℝ × ℝ

/-- The module-level mutable state of `backend/bsc.py`.  The image buffers
and the bounding-box list feed only the visualization layer and carry no
information any claim depends on, so they are not modelled; the crop
rectangle computed by `get_slice_roi` stands in for its output image. -/
structure State where
  circumferences : List Circumference := []
  original_circumferences : List Circumference := []
  pixels_per_metric : Option ℚ := none
  circumferences_data : List ProfileData := []
  output_roi : Option (Int × Int × Int × Int) := none

/-- The state right after module import or after `reset_bsc_backend`. -/
def initState : State := {}

/-- Sequencing of a fallible per-element computation over a list, raising
the first error, exactly as a Python for-loop of appends does. -/
def mapE {α β : Type _} (f : α → Except PyErr β) : List α → Except PyErr (List β)
  | [] => .ok []
  | a :: l =>
    match f a with
    | .error e => .error e
    | .ok b =>
      match mapE f l with
      | .error e => .error e
      | .ok bs => .ok (b :: bs)

/-- Python `int` applied to a float: truncation toward zero. -/
def truncTowardZero (q : ℚ) : Int :=
  if 0 ≤ q then ⌊q⌋ else ⌈q⌉

/-- The centroid as the code computes it: `int(m10 / m00), int(m01 / m00)`. -/
def pyCentroid (c : Contour) : Point :=
  (truncTowardZero (c.m10 / c.m00), truncTowardZero (c.m01 / c.m00))

/-- Centroid computation including the Python failure mode: with a zero
area moment the unguarded float division raises `ZeroDivisionError`. -/
def centroid_of (c : Contour) : Except PyErr Point :=
  if c.m00 = 0 then .error .zeroDivisionError else .ok (pyCentroid c)

/-- The shape filter `process_image` applies to a contour that survived the
area filter: simplified-polygon vertex count strictly between 10 and 20,
bounding rectangle wider and taller than 25, solidity above 0.9, and
aspect ratio between 0.8 and 1.2. -/
def shape_ok (c : Contour) : Bool :=
  decide (10 < c.approxLen) && decide (c.approxLen < 20) &&
    (decide ((25 : Int) < c.rectW) && decide ((25 : Int) < c.rectH)) &&
    decide ((0.9 : ℚ) < c.area / c.hullArea) &&
    (decide ((0.8 : ℚ) ≤ (c.rectW : ℚ) / (c.rectH : ℚ)) &&
      decide ((c.rectW : ℚ) / (c.rectH : ℚ) ≤ (1.2 : ℚ)))

/-- The contours `process_image` accepts, in discovery order: first the
area filter (skip when area is below 10000), then the shape filter. -/
def accepted_of (cnts : List Contour) : List Contour :=
  (cnts.filter fun c => decide ((10000 : ℚ) ≤ c.area)).filter shape_ok

/-- `process_image`, from the point where edge detection has produced the
contour list: the stored lists are cleared, every accepted contour is
registered with its centroid, the originals are snapshotted when more than
two candidates were found, and the candidate count is returned.  Image
loading and all drawing are visualization-only and not modelled. -/
def process_image (st : State) (cnts : List Contour) : Except PyErr (State × ℕ) :=
  match mapE (fun c =>
      match centroid_of c with
      | .error e => .error e
      | .ok ctr => .ok (c, ctr)) (accepted_of cnts) with
  | .error e => .error e
  | .ok circs =>
    .ok ({ st with
            circumferences := circs,
            original_circumferences := if 2 < circs.length then circs else [] },
          circs.length)

/-- `set_final_circumferences(selected)`: keep exactly the originals whose
enumeration index lies in the selection. -/
def set_final_circumferences (st : State) (selected : List ℕ) : State :=
  { st with circumferences :=
      ((st.original_circumferences.enum.filter fun p => selected.contains p.1).map Prod.snd) }

/-- `set_pixels_per_metric(value)`. -/
def set_pixels_per_metric (st : State) (value : ℚ) : State :=
  { st with pixels_per_metric := some value }

/-- `sort_circumferences`: reads the elements at indices 0 and 1 (an
IndexError when fewer than two are active) and reverses the whole list
when the second contour has strictly more points than the first. -/
def sort_circumferences (st : State) : Except PyErr State :=
  match st.circumferences with
  | c1 :: c2 :: _ =>
    if c1.1.points.length < c2.1.points.length then
      .ok { st with circumferences := st.circumferences.reverse }
    else .ok st
  | _ => .error .indexError

/-- `reset_bsc_backend`: every field back to empty or unset. -/
def reset_bsc_backend (_ : State) : State := initState

/-- Rounding to two decimals, as Python round(x, 2), up to the tie-breaking
convention, which no claim exercises. -/
noncomputable def round2 (x : ℝ) : ℝ := ((round (100 * x) : ℤ) : ℝ) / 100

/-- Radians to degrees, as math.degrees. -/
noncomputable def degrees (x : ℝ) : ℝ := x * 180 / Real.pi

/-- Modelled from the spec: `rect_to_polar` is defined in
`backend/utils.py`, which is not among the sources at hand.  Per the
specification it returns the polar coordinates of `point` about `center`;
with `inverted_y` the vertical axis is flipped so that the angle grows
counter-clockwise in the viewer frame although image rows grow downward. -/
noncomputable def rect_to_polar (point center : Point) (inverted_y : Bool) : ℝ × ℝ :=
  let dx : ℝ := ((point.1 - center.1 : ℤ) : ℝ)
  let dy : ℝ :=
    if inverted_y then ((center.2 - point.2 : ℤ) : ℝ) else ((point.2 - center.2 : ℤ) : ℝ)
  (Real.sqrt (dx ^ 2 + dy ^ 2), Complex.arg ⟨dx, dy⟩)

/-- One iteration of the profiling loop: polar conversion, then scaling by
the calibration value, which raises a TypeError when the calibration was
never set (division by None) and a ZeroDivisionError when it is zero; the
iteration yields the rounded radius, the rounded angle in degrees, and the
unrounded diameter contribution. -/
noncomputable def polar_step (s : Option ℚ) (center : Point) (p : Point) :
    Except PyErr (ℝ × ℝ × ℝ) :=
  match s with
  | none => .error .typeError
  | some sv =>
    if sv = 0 then .error .zeroDivisionError
    else
      let rt := rect_to_polar p center true
      .ok (round2 (rt.1 / (sv : ℝ)), round2 (degrees rt.2), rt.1 / (sv : ℝ) * 2)

/-- The profiling loop body for one circumference: every raw contour point
in traced order, then the average diameter as the mean of the accumulated
diameters. -/
noncomputable def profile_one (s : Option ℚ) (circ : Circumference) :
    Except PyErr ProfileData :=
  match mapE (polar_step s circ.2) circ.1.points with
  | .error e => .error e
  | .ok ts =>
    .ok (ts.map (fun t => t.1), ts.map (fun t => t.2.1),
      round2 ((ts.map (fun t => t.2.2)).sum / ((ts.map (fun t => t.2.2)).length : ℝ)))

/-- `circumferences_to_polar_and_avg_diameter`: sorts outer-first, then
profiles every active circumference, storing and returning the data. -/
noncomputable def circumferences_to_polar_and_avg_diameter (st : State) :
    Except PyErr (State × List ProfileData) :=
  match sort_circumferences st with
  | .error e => .error e
  | .ok st1 =>
    match mapE (profile_one st1.pixels_per_metric) st1.circumferences with
    | .error e => .error e
    | .ok data => .ok ({ st1 with circumferences_data := data }, data)

/-- `get_slice_roi`: sorts outer-first, then crops the original image to
the axis-aligned bounding rectangle of the outer contour; the crop
rectangle stands in for the output image. -/
def get_slice_roi (st : State) : Except PyErr (State × (Int × Int × Int × Int)) :=
  match sort_circumferences st with
  | .error e => .error e
  | .ok st1 =>
    match st1.circumferences with
    | [] => .error .indexError
    | c0 :: _ =>
      .ok ({ st1 with output_roi := some (c0.1.rectX, c0.1.rectY, c0.1.rectW, c0.1.rectH) },
        (c0.1.rectX, c0.1.rectY, c0.1.rectW, c0.1.rectH))

/-- `generate_text_file(file_path)`: success of the file write is
abstracted by `writeOk`; false models an IOError raised by open or by a
write, the one exception kind the function catches.  The index access and
the argmin over the outer contour happen before the try block, and the
centroid scaling inside the writing loop divides by the calibration value,
so an empty active set raises IndexError, an outer contour without points
raises ValueError, and an unset or zero calibration raises a TypeError or
a ZeroDivisionError when profile data is present. -/
def generate_text_file (st : State) (writeOk : Bool) : Except PyErr Bool :=
  match st.circumferences with
  | [] => .error .indexError
  | c0 :: _ =>
    if c0.1.points = [] then .error .valueError
    else if writeOk = false then .ok false
    else
      match st.circumferences_data with
      | [] => .ok true
      | _ :: _ =>
        match st.pixels_per_metric with
        | none => .error .typeError
        | some s => if s = 0 then .error .zeroDivisionError else .ok true

/-- States reachable from a fresh session by the registry operations:
successful `process_image` runs, `set_final_circumferences`, successful
`sort_circumferences` runs, and `reset_bsc_backend`. -/
inductive Reachable : State → Prop where
  | init : Reachable initState
  | process {st st1 : State} {cnts : List Contour} {n : ℕ} :
      Reachable st → process_image st cnts = .ok (st1, n) → Reachable st1
  | final {st : State} (sel : List ℕ) :
      Reachable st → Reachable (set_final_circumferences st sel)
  | sorted {st st1 : State} :
      Reachable st → sort_circumferences st = .ok st1 → Reachable st1
  | reset {st : State} : Reachable st → Reachable (reset_bsc_backend st)

/-- The acceptance predicate exactly as the claim words it. -/
def spec_accept (c : Contour) : Prop :=
  10 < c.approxLen ∧ c.approxLen < 20 ∧
    25 < c.rectW ∧ 25 < c.rectH ∧
    (0.9 : ℚ) < c.area / c.hullArea ∧
    (0.8 : ℚ) ≤ (c.rectW : ℚ) / (c.rectH : ℚ) ∧ (c.rectW : ℚ) / (c.rectH : ℚ) ≤ (1.2 : ℚ)

instance : DecidablePred spec_accept := fun c => by
  unfold spec_accept
  infer_instance

/-- Candidate registration as the claim words it: the survivors of the
area filter that satisfy the acceptance predicate, paired with their
truncated moment centroids, in discovery order. -/
def spec_candidates (cnts : List Contour) : List Circumference :=
  (((cnts.filter fun c => decide ((10000 : ℚ) ≤ c.area)).filter
      fun c => decide (spec_accept c)).map fun c => (c, pyCentroid c))

/-- Euclidean pixel distance between a contour point and a centroid. -/
noncomputable def pixelDist (p c : Point) : ℝ :=
  Real.sqrt (((p.1 - c.1 : ℤ) : ℝ) ^ 2 + ((p.2 - c.2 : ℤ) : ℝ) ^ 2)

/-- The profile of one circumference as the claim words it: per raw contour
point in traced order, the rounded scaled radius and the rounded angle in
degrees, and the rounded mean over all points of twice the scaled radius. -/
noncomputable def spec_profile (s : ℚ) (circ : Circumference) : ProfileData :=
  (circ.1.points.map fun p => round2 (pixelDist p circ.2 / (s : ℝ)),
   circ.1.points.map fun p => round2 (degrees (rect_to_polar p circ.2 true).2),
   round2 ((circ.1.points.map fun p => 2 * (pixelDist p circ.2 / (s : ℝ))).sum /
     (circ.1.points.length : ℝ)))

/-- Index-based projection as the claim words it: walk the list in order,
keeping exactly the entries whose position is selected. -/
def idxSelect {α : Type _} (p : ℕ → Bool) : List α → ℕ → List α
  | [], _ => []
  | a :: l, k => if p k then a :: idxSelect p l (k + 1) else idxSelect p l (k + 1)

/-- The projection of the original snapshot at the selected indices, in
original relative order. -/
def select_by_indices (orig : List Circumference) (sel : List ℕ) : List Circumference :=
  idxSelect (fun i => sel.contains i) orig 0

/-- A contour that passes every filter of `process_image`. -/
def okContour : Contour :=
  { points := [((0 : ℤ), (0 : ℤ)), ((2 : ℤ), (0 : ℤ))], area := 10001, approxLen := 12,
    rectX := 0, rectY := 0, rectW := 120, rectH := 120,
    hullArea := 10001, m00 := 10001, m10 := 0, m01 := 0 }

/-- A contour identical to `okContour` except for a single-point contour,
used for the ordering heuristic. -/
def shortContour : Contour := { okContour with points := [((0 : ℤ), (0 : ℤ))] }

/-- A contour whose zeroth moment is zero. -/
def degContour : Contour := { okContour with m00 := 0 }

/-- The state produced by processing an image with exactly one accepted
candidate: the candidate is active while the original snapshot is empty. -/
def st4c : State :=
  { circumferences := [(okContour, ((0 : ℤ), (0 : ℤ)))] }

/-- Three accepted candidates, as registered with their centroids. -/
def circ3 : List Circumference :=
  [(okContour, ((0 : ℤ), (0 : ℤ))), (okContour, ((0 : ℤ), (0 : ℤ))),
   (okContour, ((0 : ℤ), (0 : ℤ)))]

/-- The state produced by processing an image with three accepted
candidates: the snapshot is captured. -/
def st4w : State :=
  { circumferences := circ3, original_circumferences := circ3 }

/-- Two equally sized active circumferences and no calibration value. -/
def st3w : State :=
  { circumferences := [(okContour, ((0 : ℤ), (0 : ℤ))), (okContour, ((0 : ℤ), (0 : ℤ)))] }

/-- Two equally sized active circumferences with calibration value 5. -/
def st1w : State :=
  { circumferences := [(okContour, ((0 : ℤ), (0 : ℤ))), (okContour, ((0 : ℤ), (0 : ℤ)))],
    pixels_per_metric := some 5 }

/-- A short circumference followed by a longer one; the ordering heuristic
must swap them. -/
def st8 : State :=
  { circumferences := [(shortContour, ((0 : ℤ), (0 : ℤ))), (okContour, ((0 : ℤ), (0 : ℤ)))] }

/-- Three copies of the accepted contour, as a contour-extraction result. -/
def cnts3 : List Contour := [okContour, okContour, okContour]

theorem mapE_ok {α β : Type _} (f : α → Except PyErr β) (g : α → β) :
    ∀ l : List α, (∀ a ∈ l, f a = .ok (g a)) → mapE f l = .ok (l.map g)
  | [], _ => rfl
  | a :: l, h => by
    have ha := h a (by simp)
    have hl := mapE_ok f g l (fun b hb => h b (by simp [hb]))
    simp [mapE, ha, hl]

theorem mapE_cons_error {α β : Type _} (f : α → Except PyErr β) (a : α) (l : List α)
    (e : PyErr) (h : f a = .error e) : mapE f (a :: l) = .error e := by
  simp [mapE, h]

theorem sort_spec (st st1 : State) (h : sort_circumferences st = .ok st1) :
    2 ≤ st.circumferences.length ∧
      st1.original_circumferences = st.original_circumferences ∧
      st1.pixels_per_metric = st.pixels_per_metric ∧
      (st1.circumferences = st.circumferences ∨
        st1.circumferences = st.circumferences.reverse) := by
  unfold sort_circumferences at h
  split at h
  · split at h
    · cases h
      rename_i c1 c2 rest heq _
      refine ⟨by rw [heq]; simp, rfl, rfl, Or.inr rfl⟩
    · cases h
      rename_i c1 c2 rest heq _
      refine ⟨by rw [heq]; simp, rfl, rfl, Or.inl rfl⟩
  · cases h

theorem snd_mem_of_mem_enumFrom {α : Type _} :
    ∀ (l : List α) (k : ℕ) (q : ℕ × α), q ∈ List.enumFrom k l → q.2 ∈ l
  | [], _, _, h => by cases h
  | a :: l, k, q, h => by
    rw [List.enumFrom] at h
    rcases List.mem_cons.1 h with h | h
    · subst h
      exact List.mem_cons_self _ _
    · exact List.mem_cons_of_mem _ (snd_mem_of_mem_enumFrom l (k + 1) q h)

theorem mem_of_mem_sel {α : Type _} (l : List α) (p : ℕ × α → Bool) (c : α)
    (h : c ∈ (l.enum.filter p).map Prod.snd) : c ∈ l := by
  obtain ⟨q, hq, rfl⟩ := List.mem_map.1 h
  exact snd_mem_of_mem_enumFrom l 0 q (List.mem_filter.1 hq).1

theorem enumFrom_select {α : Type _} (p : ℕ → Bool) :
    ∀ (l : List α) (k : ℕ),
      ((List.enumFrom k l).filter fun q => p q.1).map Prod.snd = idxSelect p l k
  | [], _ => rfl
  | a :: l, k => by
    by_cases hk : p k
    · simp [List.enumFrom, List.filter_cons, hk, idxSelect, enumFrom_select p l (k + 1)]
    · simp [List.enumFrom, List.filter_cons, hk, idxSelect, enumFrom_select p l (k + 1)]

theorem rect_to_polar_fst (p c : Point) :
    (rect_to_polar p c true).1 = pixelDist p c := by
  unfold rect_to_polar pixelDist
  simp only [if_pos]
  congr 1
  push_cast
  ring

theorem polar_step_ok (s : ℚ) (hs : s ≠ 0) (c p : Point) :
    polar_step (some s) c p =
      .ok (round2 (pixelDist p c / (s : ℝ)),
        round2 (degrees (rect_to_polar p c true).2),
        pixelDist p c / (s : ℝ) * 2) := by
  unfold polar_step
  dsimp only
  rw [if_neg hs]
  simp only [rect_to_polar_fst]

theorem profile_one_ok (s : ℚ) (hs : s ≠ 0) (circ : Circumference) :
    profile_one (some s) circ = .ok (spec_profile s circ) := by
  unfold profile_one
  rw [mapE_ok (polar_step (some s) circ.2)
    (fun p => (round2 (pixelDist p circ.2 / (s : ℝ)),
      round2 (degrees (rect_to_polar p circ.2 true).2),
      pixelDist p circ.2 / (s : ℝ) * 2))
    circ.1.points (fun p _ => polar_step_ok s hs circ.2 p)]
  unfold spec_profile
  simp only [List.map_map, Function.comp_def, List.length_map]
  congr 2
  simp [mul_comm]

theorem profile_one_none_error (circ : Circumference) (h : circ.1.points ≠ []) :
    profile_one none circ = .error .typeError := by
  unfold profile_one
  match hp : circ.1.points with
  | [] => exact absurd hp h
  | p :: ps =>
    rw [mapE_cons_error (polar_step none circ.2) p ps .typeError rfl]

theorem sort_pair (st : State) (ca cb : Circumference)
    (h : st.circumferences = [ca, cb]) :
    sort_circumferences st =
      if ca.1.points.length < cb.1.points.length then
        .ok { st with circumferences := [cb, ca] }
      else .ok st := by
  unfold sort_circumferences
  rw [h]
  dsimp only
  by_cases hlt : ca.1.points.length < cb.1.points.length
  · rw [if_pos hlt, if_pos hlt]
    exact rfl
  · rw [if_neg hlt, if_neg hlt]

/-- C6, corrected: on every contour whose zeroth (area) moment is zero, the
centroid computation of `process_image` performs an unguarded division and
so raises the generic ZeroDivisionError; the code defines no explicit
DegenerateContour error. -/
theorem c6_zero_moment_division (c : Contour) (h : c.m00 = 0) :
    centroid_of c = .error .zeroDivisionError := by
  unfold centroid_of
  rw [if_pos h]

/-- C6 counterexample: a contour with zero area moment makes the centroid
computation fail with ZeroDivisionError, not with the DegenerateContour
error the claim names. -/
theorem c6_zero_moment_counterexample :
    centroid_of degContour = .error .zeroDivisionError ∧
      centroid_of degContour ≠ .error .degenerateContour := by
  constructor
  · rfl
  · intro h
    have h1 : centroid_of degContour = Except.error PyErr.zeroDivisionError := rfl
    rw [h] at h1
    injection h1 with h2
    exact (by decide : PyErr.degenerateContour ≠ PyErr.zeroDivisionError) h2

/-- C6 witness: the amended statement evaluated on a concrete degenerate
contour. -/
theorem c6_zero_moment_division_witness :
    degContour.m00 = 0 ∧ centroid_of degContour = .error .zeroDivisionError :=
  ⟨rfl, c6_zero_moment_division degContour rfl⟩

/-- C10, confirmed: with fewer than two active circumferences,
`sort_circumferences` raises IndexError, and both the polar profiler and
`get_slice_roi`, which invoke it first, fail the same way instead of
completing. -/
theorem c10_short_list_index_error (st : State) (h : st.circumferences.length < 2) :
    sort_circumferences st = .error .indexError ∧
      circumferences_to_polar_and_avg_diameter st = .error .indexError ∧
      get_slice_roi st = .error .indexError := by
  have hs : sort_circumferences st = .error .indexError := by
    unfold sort_circumferences
    cases hc : st.circumferences with
    | nil => rfl
    | cons c1 tl =>
      cases htl : tl with
      | nil => rfl
      | cons c2 rest =>
        rw [hc, htl] at h
        simp only [List.length_cons] at h
        omega
  refine ⟨hs, ?_, ?_⟩
  · unfold circumferences_to_polar_and_avg_diameter
    rw [hs]
  · unfold get_slice_roi
    rw [hs]

/-- C10 witness: the fresh session has no active circumferences, and all
three operations fail with IndexError on it. -/
theorem c10_short_list_index_error_witness :
    sort_circumferences initState = .error .indexError ∧
      circumferences_to_polar_and_avg_diameter initState = .error .indexError ∧
      get_slice_roi initState = .error .indexError :=
  c10_short_list_index_error initState (by decide)

/-- C8, confirmed: on exactly two active circumferences the ordering
operation swaps the pair exactly when the second contour has strictly more
points than the first, and applying it twice yields the same order as
applying it once. -/
theorem c8_sort_swap_iff_idempotent (st : State) (ca cb : Circumference)
    (h : st.circumferences = [ca, cb]) :
    (sort_circumferences st = .ok { st with circumferences :=
        if ca.1.points.length < cb.1.points.length then [cb, ca] else [ca, cb] }) ∧
      (∀ st1 : State, sort_circumferences st = .ok st1 →
        sort_circumferences st1 = .ok st1) := by
  have heta : { st with circumferences := [ca, cb] } = st := by
    rw [← h]
  have hsp := sort_pair st ca cb h
  constructor
  · rw [hsp]
    by_cases hlt : ca.1.points.length < cb.1.points.length
    · rw [if_pos hlt, if_pos hlt]
    · rw [if_neg hlt, if_neg hlt, heta]
  · intro st1 h1
    rw [hsp] at h1
    by_cases hlt : ca.1.points.length < cb.1.points.length
    · rw [if_pos hlt] at h1
      cases h1
      rw [sort_pair _ cb ca rfl, if_neg (Nat.lt_asymm hlt)]
    · rw [if_neg hlt] at h1
      cases h1
      rw [hsp, if_neg hlt]

/-- C8 witness: a one-point contour followed by a two-point contour is
swapped, and sorting again leaves the swapped order unchanged. -/
theorem c8_sort_swap_iff_idempotent_witness :
    sort_circumferences st8 = .ok { st8 with circumferences :=
        [(okContour, ((0 : ℤ), (0 : ℤ))), (shortContour, ((0 : ℤ), (0 : ℤ)))] } ∧
      sort_circumferences { st8 with circumferences :=
        [(okContour, ((0 : ℤ), (0 : ℤ))), (shortContour, ((0 : ℤ), (0 : ℤ)))] } =
      .ok { st8 with circumferences :=
        [(okContour, ((0 : ℤ), (0 : ℤ))), (shortContour, ((0 : ℤ), (0 : ℤ)))] } := by
  have T := c8_sort_swap_iff_idempotent st8 (shortContour, ((0 : ℤ), (0 : ℤ)))
    (okContour, ((0 : ℤ), (0 : ℤ))) rfl
  have h1 := T.1
  rw [if_pos (by decide)] at h1
  exact ⟨h1, T.2 _ h1⟩

/-- C9, confirmed: a successful `process_image` run snapshots the candidate
list into the originals exactly when more than two candidates were found,
and leaves the original set empty otherwise. -/
theorem c9_snapshot_threshold (st : State) (cnts : List Contour) (st1 : State) (n : ℕ)
    (h : process_image st cnts = .ok (st1, n)) :
    (2 < n ∧ st1.original_circumferences = st1.circumferences) ∨
      (n ≤ 2 ∧ st1.original_circumferences = []) := by
  unfold process_image at h
  split at h
  · cases h
  · cases h
    rename_i circs heq
    by_cases h2 : 2 < circs.length
    · exact Or.inl ⟨h2, by simp [h2]⟩
    · exact Or.inr ⟨Nat.le_of_not_lt h2, by simp [h2]⟩

/-- C9 witness: three accepted candidates trigger the snapshot. -/
theorem c9_snapshot_threshold_witness :
    (2 < 3 ∧ st4w.original_circumferences = st4w.circumferences) ∨
      (3 ≤ 2 ∧ st4w.original_circumferences = []) :=
  c9_snapshot_threshold initState cnts3 st4w 3 (by
    norm_num [process_image, accepted_of, cnts3, shape_ok, okContour, mapE, centroid_of,
      pyCentroid, truncTowardZero, initState, st4w, circ3])

/-- C5, corrected and amended: when the active set is nonempty, the outer
contour has points, and the calibration is set and nonzero whenever profile
data is present, the report writer returns True on a successful write and
False on an I/O failure; its boolean result is exactly the write outcome
and no exception escapes. -/
theorem c5_report_boundary (st : State) (w : Bool) (c0 : Circumference)
    (rest : List Circumference) (hc : st.circumferences = c0 :: rest)
    (hp : c0.1.points ≠ [])
    (hd : st.circumferences_data = [] ∨
      ∃ s, st.pixels_per_metric = some s ∧ s ≠ 0) :
    generate_text_file st w = .ok w := by
  unfold generate_text_file
  rw [hc]
  dsimp only
  rw [if_neg hp]
  cases w
  · rw [if_pos rfl]
  · rw [if_neg (by simp)]
    rcases hd with hd | ⟨s, hs, hs0⟩
    · rw [hd]
    · cases hdata : st.circumferences_data with
      | nil => rfl
      | cons d ds =>
        dsimp only
        rw [hs]
        dsimp only
        rw [if_neg hs0]

/-- C5 counterexample: on an empty active set the report writer raises
IndexError past its boundary instead of returning a boolean. -/
theorem c5_report_counterexample :
    generate_text_file initState true = .error .indexError ∧
      (Except.error PyErr.indexError : Except PyErr Bool) ≠ .ok true ∧
      (Except.error PyErr.indexError : Except PyErr Bool) ≠ .ok false := by
  refine ⟨rfl, ?_, ?_⟩ <;> intro h <;> cases h

theorem shape_ok_iff (c : Contour) : shape_ok c = true ↔ spec_accept c := by
  unfold shape_ok spec_accept
  simp only [Bool.and_eq_true, decide_eq_true_eq, and_assoc]

theorem shape_ok_eq (c : Contour) : shape_ok c = decide (spec_accept c) := by
  by_cases h : spec_accept c
  · rw [(shape_ok_iff c).2 h, decide_eq_true h]
  · rw [decide_eq_false h, Bool.eq_false_iff]
    exact fun hb => h ((shape_ok_iff c).1 hb)

/-- C2, confirmed: among the contours that survive the area filter,
`process_image` registers a candidate exactly when the simplified-polygon
vertex count k satisfies 10 < k < 20, the bounding rectangle satisfies
w > 25 and h > 25, the solidity exceeds 0.9 and the aspect ratio lies in
[0.8, 1.2]; accepted candidates are appended with their centroids in
discovery order, and a 4-vertex approximation is always rejected. -/
theorem c2_shape_classification (st : State) (cnts : List Contour)
    (hnd : ∀ c ∈ accepted_of cnts, c.m00 ≠ 0) :
    (process_image st cnts).map (fun r => r.1.circumferences) =
        .ok (spec_candidates cnts) ∧
      (∀ c : Contour, shape_ok c = true ↔ spec_accept c) ∧
      (∀ c : Contour, c.approxLen = 4 → shape_ok c = false) := by
  refine ⟨?_, shape_ok_iff, ?_⟩
  · unfold process_image
    rw [mapE_ok (fun c =>
        match centroid_of c with
        | .error e => .error e
        | .ok ctr => .ok (c, ctr))
      (fun c => (c, pyCentroid c)) (accepted_of cnts)
      (fun c hc => by
        unfold centroid_of
        dsimp only
        rw [if_neg (hnd c hc)])]
    dsimp only [Except.map]
    unfold spec_candidates accepted_of
    rw [List.filter_congr (fun c _ => shape_ok_eq c)]
  · intro c hc
    unfold shape_ok
    rw [hc]
    rfl

/-- C2 witness: a concrete contour passing every filter is registered as
the specification predicts. -/
theorem c2_shape_classification_witness :
    (process_image initState cnts3).map (fun r => r.1.circumferences) =
      .ok (spec_candidates cnts3) :=
  (c2_shape_classification initState cnts3 (by
    norm_num [accepted_of, cnts3, shape_ok, okContour])).1

/-- C7, confirmed: `set_final_circumferences` makes the active list exactly
the projection of the original snapshot at the selected indices, in
original relative order, discarding the prior final contents, and leaves
the snapshot itself unchanged. -/
theorem c7_set_final_projection (st : State) (sel : List ℕ) :
    (set_final_circumferences st sel).circumferences =
        select_by_indices st.original_circumferences sel ∧
      (set_final_circumferences st sel).original_circumferences =
        st.original_circumferences := by
  refine ⟨?_, rfl⟩
  unfold set_final_circumferences select_by_indices
  dsimp only
  exact enumFrom_select (fun i => sel.contains i) st.original_circumferences 0

/-- C5 witness: the amended statement evaluated on a concrete state for
both write outcomes. -/
theorem c5_report_boundary_witness :
    generate_text_file st3w true = .ok true ∧ generate_text_file st3w false = .ok false :=
  ⟨c5_report_boundary st3w true (okContour, ((0 : ℤ), (0 : ℤ)))
      [(okContour, ((0 : ℤ), (0 : ℤ)))] rfl (by decide) (Or.inl rfl),
    c5_report_boundary st3w false (okContour, ((0 : ℤ), (0 : ℤ)))
      [(okContour, ((0 : ℤ), (0 : ℤ)))] rfl (by decide) (Or.inl rfl)⟩

/-- C1, confirmed: with the calibration value s set and nonzero, the active
set ordered outer-first (so the initial sorting pass leaves it unchanged)
and every contour nonempty, the profiler produces one profile per active
Circumference in the same order; its radius list maps every raw contour
point, in traced order, to the pixel distance to the centroid divided by s
and rounded to two decimals, its angle list maps every point to the polar
angle in the inverted-vertical-axis convention in degrees rounded to two
decimals, and its average diameter is the mean over all points of twice
the scaled radius, rounded to two decimals. -/
theorem c1_polar_profiles (st : State) (s : ℚ)
    (hs : st.pixels_per_metric = some s) (hs0 : s ≠ 0)
    (hsort : sort_circumferences st = .ok st)
    (_hpts : ∀ c ∈ st.circumferences, c.1.points ≠ []) :
    circumferences_to_polar_and_avg_diameter st =
      .ok ({ st with circumferences_data := st.circumferences.map (spec_profile s) },
        st.circumferences.map (spec_profile s)) := by
  unfold circumferences_to_polar_and_avg_diameter
  rw [hsort]
  dsimp only
  rw [hs, mapE_ok (profile_one (some s)) (spec_profile s) st.circumferences
    (fun c _ => profile_one_ok s hs0 c)]

/-- C1 witness: two concrete circumferences, calibration 5, evaluated
through the theorem. -/
theorem c1_polar_profiles_witness :
    circumferences_to_polar_and_avg_diameter st1w =
      .ok ({ st1w with circumferences_data := st1w.circumferences.map (spec_profile 5) },
        st1w.circumferences.map (spec_profile 5)) :=
  c1_polar_profiles st1w 5 rfl (by norm_num) rfl (by
    intro c hc
    simp only [st1w, List.mem_cons, List.not_mem_nil, or_false] at hc
    rcases hc with h | h <;> subst h <;> simp [okContour])

/-- C3, corrected: the code has no getter for the calibration value at all,
and running the profiler before `set_pixels_per_metric` fails with the
generic TypeError of dividing by None, not with an explicit
CalibrationNotSet error. -/
theorem c3_profiler_unset_calibration (st : State)
    (hscale : st.pixels_per_metric = none)
    (hlen : 2 ≤ st.circumferences.length)
    (hpts : ∀ c ∈ st.circumferences, c.1.points ≠ []) :
    circumferences_to_polar_and_avg_diameter st = .error .typeError := by
  obtain ⟨c1, c2, rest, hc⟩ : ∃ c1 c2 rest, st.circumferences = c1 :: c2 :: rest := by
    match hm : st.circumferences with
    | [] => rw [hm] at hlen; simp only [List.length_nil] at hlen; omega
    | [c] => rw [hm] at hlen; simp only [List.length_cons, List.length_nil] at hlen; omega
    | a :: b :: r => exact ⟨a, b, r, rfl⟩
  unfold circumferences_to_polar_and_avg_diameter sort_circumferences
  rw [hc]
  dsimp only
  by_cases hlt : c1.1.points.length < c2.1.points.length
  · rw [if_pos hlt]
    dsimp only
    rw [hscale]
    cases hr : (c1 :: c2 :: rest).reverse with
    | nil => exact absurd hr (by simp)
    | cons d ds =>
      have hd : d ∈ st.circumferences := by
        rw [hc, ← List.mem_reverse, hr]
        exact List.mem_cons_self _ _
      rw [mapE_cons_error (profile_one none) d ds .typeError
        (profile_one_none_error d (hpts d hd))]
  · rw [if_neg hlt]
    dsimp only
    rw [hscale, hc, mapE_cons_error (profile_one none) c1 (c2 :: rest) .typeError
      (profile_one_none_error c1 (hpts c1 (by rw [hc]; exact List.mem_cons_self _ _)))]

/-- C3 counterexample: with two valid circumferences and the calibration
never set, the profiler raises TypeError, which is not the
CalibrationNotSet error the claim names. -/
theorem c3_profiler_counterexample :
    circumferences_to_polar_and_avg_diameter st3w = .error .typeError ∧
      circumferences_to_polar_and_avg_diameter st3w ≠ .error .calibrationNotSet := by
  have h : circumferences_to_polar_and_avg_diameter st3w = .error .typeError := rfl
  refine ⟨h, ?_⟩
  rw [h]
  intro h2
  injection h2 with h3
  exact (by decide : PyErr.typeError ≠ PyErr.calibrationNotSet) h3

/-- C3 witness: the amended statement evaluated on a concrete uncalibrated
state. -/
theorem c3_profiler_unset_calibration_witness :
    st3w.pixels_per_metric = none ∧
      circumferences_to_polar_and_avg_diameter st3w = .error .typeError :=
  ⟨rfl, c3_profiler_unset_calibration st3w rfl (by decide) (by
    intro c hc
    simp only [st3w, List.mem_cons, List.not_mem_nil, or_false] at hc
    rcases hc with h | h <;> subst h <;> simp [okContour])⟩

/-- C4, corrected and amended: in every reachable state whose original
snapshot is nonempty, every active Circumference is an element of the
snapshot; but a `process_image` run that registers one or two candidates
leaves them active while the snapshot stays empty, so the unconditional
subset claim fails. -/
theorem c4_final_subset_of_original (st : State) (hr : Reachable st) :
    st.original_circumferences ≠ [] →
      ∀ c ∈ st.circumferences, c ∈ st.original_circumferences := by
  induction hr with
  | init => exact fun h => absurd rfl h
  | process hst heq ih =>
    clear ih
    intro hne c hcm
    rename_i st0 st1 cnts n
    unfold process_image at heq
    split at heq
    · cases heq
    · cases heq
      rename_i circs hm
      dsimp only at hne hcm ⊢
      by_cases h2 : 2 < circs.length
      · rw [if_pos h2]
        exact hcm
      · rw [if_neg h2] at hne
        exact absurd rfl hne
  | final sel hst ih =>
    intro hne c hcm
    unfold set_final_circumferences at hcm ⊢
    dsimp only at hcm ⊢
    exact mem_of_mem_sel _ _ c hcm
  | sorted hst hsort ih =>
    rename_i st0 st1
    intro hne c hcm
    obtain ⟨-, horig, -, hcirc⟩ := sort_spec st0 st1 hsort
    rw [horig] at hne ⊢
    rcases hcirc with hcirc | hcirc
    · exact ih hne c (hcirc ▸ hcm)
    · rw [hcirc] at hcm
      exact ih hne c (List.mem_reverse.1 hcm)
  | reset hst ih => exact fun h => absurd rfl h

/-- C4 counterexample: processing an image with exactly one accepted
candidate yields a reachable state whose active list holds a Circumference
that is not in the (empty) original snapshot. -/
theorem c4_subset_counterexample :
    Reachable st4c ∧ (okContour, ((0 : ℤ), (0 : ℤ))) ∈ st4c.circumferences ∧
      (okContour, ((0 : ℤ), (0 : ℤ))) ∉ st4c.original_circumferences := by
  refine ⟨Reachable.process Reachable.init
    (show process_image initState [okContour] = .ok (st4c, 1) by
      norm_num [process_image, accepted_of, shape_ok, okContour, mapE, centroid_of,
        pyCentroid, truncTowardZero, initState, st4c]), ?_, ?_⟩
  · simp [st4c]
  · simp [st4c]

/-- C4 witness: a reachable state with a captured snapshot, on which the
amended invariant places the active head inside the snapshot. -/
theorem c4_final_subset_of_original_witness :
    st4w.original_circumferences ≠ [] ∧
      (okContour, ((0 : ℤ), (0 : ℤ))) ∈ st4w.original_circumferences := by
  have hr : Reachable st4w := Reachable.process Reachable.init
    (show process_image initState cnts3 = .ok (st4w, 3) by
      norm_num [process_image, accepted_of, cnts3, shape_ok, okContour, mapE, centroid_of,
        pyCentroid, truncTowardZero, initState, st4w, circ3])
  have hne : st4w.original_circumferences ≠ [] := by simp [st4w, circ3]
  exact ⟨hne, c4_final_subset_of_original st4w hr hne (okContour, ((0 : ℤ), (0 : ℤ)))
    (by simp [st4w, circ3])⟩

end BSC
